import Mathlib

/-!
Verification of the Mira multi-tenant assistant against its specification.

The definitions below are a shallow embedding of the repository's Python
sources.  Database tables become Lists of row structures in insertion
order; `SELECT ... fetchone` becomes `List.find?`; `UPDATE ... WHERE id =`
becomes a `List.map` that rewrites the matching row; fresh uuids and
`utcnow()` become explicit `newId` / `now` parameters supplied by the
caller.  External collaborators (the Fernet cipher of the `cryptography`
library, the HMAC hash, the FAISS vector store, the LLM) are modelled as
explicit function parameters carrying their documented contracts.
-/

set_option autoImplicit false

namespace Mira

/-! ## Secret store rows (src/db.py: user_secrets / company_secrets tables)

Both tables have the shape (id, owner-id, key_name, encrypted_value,
created_at, updated_at); `owner_id` stands for `user_id` in `user_secrets`
and `company_id` in `company_secrets`.  Row ids model uuid4 strings;
timestamps model `utcnow()`. -/

structure SecretRow where
  id : Nat
  owner_id : String
  key_name : String
  encrypted_value : String
  created_at : Nat
  updated_at : Nat
deriving Repr, DecidableEq

/-- The `select ... where owner = o and key_name = k` row filter. -/
def secretMatches (owner keyName : String) (r : SecretRow) : Bool :=
  r.owner_id == owner && r.key_name == keyName

/-- `SELECT * FROM <table> WHERE owner = o AND key_name = k` (`fetchone`). -/
def findSecret (rows : List SecretRow) (owner keyName : String) : Option SecretRow :=
  rows.find? (secretMatches owner keyName)

/-- The `UPDATE <table> SET encrypted_value = e, updated_at = now WHERE id = i`
statement, applied to one row. -/
def updateSecretValue (i : Nat) (enc : String) (now : Nat) (r : SecretRow) : SecretRow :=
  if r.id = i then { r with encrypted_value := enc, updated_at := now } else r

/-- Shared body of `upsert_user_secret` and `upsert_company_secret`
(src/db.py lines 265-292 and 307-334, which are textually identical up to
the table and owner-column names): if a row for (owner, key_name) exists,
overwrite its value and updated timestamp in place, else insert a fresh
row.  Returns the new table contents and the id the Python function
returns. -/
def upsertSecretRows (rows : List SecretRow) (owner keyName enc : String)
    (newId now : Nat) : List SecretRow × Nat :=
  match findSecret rows owner keyName with
  | some existing => (rows.map (updateSecretValue existing.id enc now), existing.id)
  | none =>
    (rows ++ [{ id := newId, owner_id := owner, key_name := keyName,
                encrypted_value := enc, created_at := now, updated_at := now }], newId)

/-- `upsert_user_secret` (src/db.py lines 265-292). -/
def upsert_user_secret (rows : List SecretRow) (user_id keyName enc : String)
    (newId now : Nat) : List SecretRow × Nat :=
  upsertSecretRows rows user_id keyName enc newId now

/-- `upsert_company_secret` (src/db.py lines 307-334). -/
def upsert_company_secret (rows : List SecretRow) (company_id keyName enc : String)
    (newId now : Nat) : List SecretRow × Nat :=
  upsertSecretRows rows company_id keyName enc newId now

/-- Number of live rows for one (owner, key_name) pair. -/
def countSecret (rows : List SecretRow) (owner keyName : String) : Nat :=
  (rows.filter (secretMatches owner keyName)).length

/-! ## Fernet cipher (external collaborator: `cryptography.fernet.Fernet`)

`encrypt` maps plaintext to the ciphertext stored in the table (the
utf-8 encode/decode steps of src/secret_store.py are folded in, since they
are mutually inverse on unicode strings); `decrypt` returns `none` when
the library raises `InvalidToken`. -/

structure Fernet where
  encrypt : String → String
  decrypt : String → Option String

/-- The library contract: decrypting a freshly encrypted value succeeds and
returns the original plaintext. -/
def FernetOK (f : Fernet) : Prop :=
  ∀ s : String, f.decrypt (f.encrypt s) = some s

/-- A concrete cipher satisfying `FernetOK`, used to evaluate the theorems
on closed inputs. -/
def plainCipher : Fernet := { encrypt := fun s => s, decrypt := fun s => some s }

theorem plainCipher_ok : FernetOK plainCipher := fun _ => rfl

/-! ## Secret store operations (src/secret_store.py) -/

/-- Shared body of `get_secret` and `get_company_secret_value`
(src/secret_store.py lines 22-31 and 43-53): look the row up, decrypt,
and treat a failed decryption (`InvalidToken`) as absence. -/
def getSecretRows (f : Fernet) (rows : List SecretRow) (owner keyName : String) :
    Option String :=
  match findSecret rows owner keyName with
  | none => none
  | some row => f.decrypt row.encrypted_value

/-- `set_secret` (src/secret_store.py lines 14-19).  A `none` plaintext is
the Python `None`, on which the function returns without writing. -/
def set_secret (f : Fernet) (rows : List SecretRow) (user_id keyName : String)
    (plaintext : Option String) (newId now : Nat) : List SecretRow × Option Nat :=
  match plaintext with
  | none => (rows, none)
  | some p =>
    let r := upsert_user_secret rows user_id keyName (f.encrypt p) newId now
    (r.1, some r.2)

/-- `get_secret` (src/secret_store.py lines 22-31). -/
def get_secret (f : Fernet) (rows : List SecretRow) (user_id keyName : String) :
    Option String :=
  getSecretRows f rows user_id keyName

/-- `set_company_secret` (src/secret_store.py lines 34-40). -/
def set_company_secret (f : Fernet) (rows : List SecretRow) (company_id keyName : String)
    (plaintext : Option String) (newId now : Nat) : List SecretRow × Option Nat :=
  match plaintext with
  | none => (rows, none)
  | some p =>
    let r := upsert_company_secret rows company_id keyName (f.encrypt p) newId now
    (r.1, some r.2)

/-- `get_company_secret_value` (src/secret_store.py lines 43-53). -/
def get_company_secret_value (f : Fernet) (rows : List SecretRow)
    (company_id keyName : String) : Option String :=
  getSecretRows f rows company_id keyName

/-! ## Credential resolution in the sidebar (src/app.py) -/

/-- Python truthiness of an optional string: `None` and `""` are falsy. -/
def truthyStr : Option String → Bool
  | none => false
  | some s => !(s == "")

/-- The sidebar OpenAI key resolution (src/app.py lines 288-304): try the
company-level secret first; if it is truthy use it with source "company",
else fall back to the user-level secret with source "user" when that one
is truthy.  Returns (saved_api_key, api_key_source). -/
def resolveOpenAIKey (f : Fernet) (companyRows userRows : List SecretRow)
    (companyId userId : String) : Option String × Option String :=
  let company := get_company_secret_value f companyRows companyId "openai_api_key"
  if truthyStr company then
    (company, some "company")
  else
    let u := get_secret f userRows userId "openai_api_key"
    (u, if truthyStr u then some "user" else none)

/-- The sidebar Trello credential resolution (src/app.py lines 321-341):
company key and token win only when both are truthy; otherwise both values
are read from the user scope.  Returns
(saved_trello_key, saved_trello_token, trello_source). -/
def resolveTrelloCreds (f : Fernet) (companyRows userRows : List SecretRow)
    (companyId userId : String) : Option String × Option String × Option String :=
  let ck := get_company_secret_value f companyRows companyId "trello_api_key"
  let ct := get_company_secret_value f companyRows companyId "trello_token"
  if truthyStr ck && truthyStr ct then
    (ck, ct, some "company")
  else
    let uk := get_secret f userRows userId "trello_api_key"
    let ut := get_secret f userRows userId "trello_token"
    (uk, ut, if truthyStr uk || truthyStr ut then some "user" else none)

/-! ## Lemmas about the secret-store upsert -/

theorem secretMatches_update (o k : String) (i : Nat) (e : String) (n : Nat)
    (r : SecretRow) :
    secretMatches o k (updateSecretValue i e n r) = secretMatches o k r := by
  unfold updateSecretValue secretMatches
  split <;> rfl

theorem findSecret_map_update (rows : List SecretRow) (o k : String) (i : Nat)
    (e : String) (n : Nat) :
    findSecret (rows.map (updateSecretValue i e n)) o k
      = (findSecret rows o k).map (updateSecretValue i e n) := by
  induction rows with
  | nil => rfl
  | cons r rest ih =>
    simp only [List.map_cons, findSecret, List.find?]
    rw [secretMatches_update]
    cases h : secretMatches o k r
    · exact ih
    · rfl

theorem countSecret_map_update (rows : List SecretRow) (o k : String) (i : Nat)
    (e : String) (n : Nat) :
    countSecret (rows.map (updateSecretValue i e n)) o k = countSecret rows o k := by
  induction rows with
  | nil => rfl
  | cons r rest ih =>
    simp only [countSecret, List.map_cons, List.filter]
    rw [secretMatches_update]
    cases h : secretMatches o k r
    · exact ih
    · simpa [List.length_cons] using ih

theorem findSecret_append (rows l2 : List SecretRow) (o k : String)
    (h : findSecret rows o k = none) :
    findSecret (rows ++ l2) o k = findSecret l2 o k := by
  induction rows with
  | nil => rfl
  | cons r rest ih =>
    simp only [findSecret, List.cons_append, List.find?] at h ⊢
    cases hr : secretMatches o k r
    · rw [hr] at h
      exact ih h
    · rw [hr] at h
      exact absurd h (by simp)

theorem countSecret_eq_zero_of_find_none (rows : List SecretRow) (o k : String)
    (h : findSecret rows o k = none) : countSecret rows o k = 0 := by
  induction rows with
  | nil => rfl
  | cons r rest ih =>
    simp only [findSecret, List.find?] at h
    simp only [countSecret, List.filter]
    cases hr : secretMatches o k r
    · rw [hr] at h
      exact ih h
    · rw [hr] at h
      exact absurd h (by simp)

theorem countSecret_ne_zero_of_find_some (rows : List SecretRow) (o k : String)
    (r : SecretRow) (h : findSecret rows o k = some r) : countSecret rows o k ≠ 0 := by
  induction rows with
  | nil => simp [findSecret] at h
  | cons a rest ih =>
    simp only [findSecret, List.find?] at h
    simp only [countSecret, List.filter]
    cases ha : secretMatches o k a
    · rw [ha] at h
      exact ih h
    · simp

/-- After an upsert for (o, k), the live row for (o, k) holds the freshly
written encrypted value. -/
theorem findSecret_upsert (rows : List SecretRow) (o k e : String) (i n : Nat) :
    (findSecret (upsertSecretRows rows o k e i n).1 o k).map (·.encrypted_value)
      = some e := by
  unfold upsertSecretRows
  cases hfind : findSecret rows o k with
  | none =>
    simp only
    rw [findSecret_append rows _ o k hfind]
    simp [findSecret, List.find?, secretMatches]
  | some ex =>
    simp only
    rw [findSecret_map_update, hfind]
    simp [updateSecretValue]

/-- An upsert creates the row when absent and otherwise leaves the row count
for the pair unchanged. -/
theorem countSecret_upsert (rows : List SecretRow) (o k e : String) (i n : Nat) :
    countSecret (upsertSecretRows rows o k e i n).1 o k
      = if countSecret rows o k = 0 then 1 else countSecret rows o k := by
  unfold upsertSecretRows
  cases hfind : findSecret rows o k with
  | none =>
    have hz := countSecret_eq_zero_of_find_none rows o k hfind
    simp only [hz, if_pos rfl]
    simp only [countSecret, List.filter_append, List.length_append]
    simp only [countSecret] at hz
    rw [hz]
    simp [List.filter, secretMatches]
  | some ex =>
    have hnz := countSecret_ne_zero_of_find_some rows o k ex hfind
    simp only [countSecret_map_update, if_neg hnz]

/-- Store-level round trip: reading (o, k) right after writing it through
the cipher gives back the plaintext. -/
theorem getSecretRows_upsert (f : Fernet) (hf : FernetOK f) (rows : List SecretRow)
    (o k v : String) (i n : Nat) :
    getSecretRows f (upsertSecretRows rows o k (f.encrypt v) i n).1 o k = some v := by
  have h := findSecret_upsert rows o k (f.encrypt v) i n
  unfold getSecretRows
  cases hfind : findSecret (upsertSecretRows rows o k (f.encrypt v) i n).1 o k with
  | none => rw [hfind] at h; exact absurd h (by simp)
  | some r =>
    rw [hfind] at h
    simp only [Option.map_some', Option.some.injEq] at h
    show f.decrypt r.encrypted_value = some v
    rw [h]
    exact hf v

/-! ## Claim theorems: C3, C4, C1, C10 -/

/-- Claim C3: for every plaintext string v (arbitrary unicode), every scope
id and every key name, `get_secret` immediately after `set_secret` of v
returns exactly v, and likewise for the company-scoped pair — the
encrypt-then-decrypt round trip through the store is the identity, given
the cipher's decrypt-after-encrypt contract. -/
theorem c3_secret_roundtrip (f : Fernet) (hf : FernetOK f)
    (urows crows : List SecretRow) (uid cid keyName v : String) (i1 n1 i2 n2 : Nat) :
    get_secret f (set_secret f urows uid keyName (some v) i1 n1).1 uid keyName = some v ∧
    get_company_secret_value f
      (set_company_secret f crows cid keyName (some v) i2 n2).1 cid keyName = some v :=
  ⟨getSecretRows_upsert f hf urows uid keyName v i1 n1,
   getSecretRows_upsert f hf crows cid keyName v i2 n2⟩

/-- Witness for C3 at concrete inputs, including non-ascii plaintext. -/
theorem c3_secret_roundtrip_check :
    get_secret plainCipher
      (set_secret plainCipher [] "U1" "openai_api_key" (some "sk-αβ✓") 0 0).1
      "U1" "openai_api_key" = some "sk-αβ✓" :=
  (c3_secret_roundtrip plainCipher plainCipher_ok [] [] "U1" "C1" "openai_api_key"
    "sk-αβ✓" 0 0 1 0).1

/-- Claim C4: starting from a table with at most one live row for the pair,
two `set_secret` calls with different plaintexts leave exactly one row for
(scope, key_name), and `get_secret` then returns the second plaintext; the
same holds for the company-scoped store. -/
theorem c4_upsert_single_row (f : Fernet) (hf : FernetOK f) (rows crows : List SecretRow)
    (uid cid keyName v1 v2 : String) (i1 n1 i2 n2 : Nat)
    (hcount : countSecret rows uid keyName ≤ 1)
    (hcountc : countSecret crows cid keyName ≤ 1) (_hne : v1 ≠ v2) :
    (countSecret (set_secret f (set_secret f rows uid keyName (some v1) i1 n1).1
        uid keyName (some v2) i2 n2).1 uid keyName = 1 ∧
      get_secret f (set_secret f (set_secret f rows uid keyName (some v1) i1 n1).1
        uid keyName (some v2) i2 n2).1 uid keyName = some v2) ∧
    (countSecret (set_company_secret f (set_company_secret f crows cid keyName
        (some v1) i1 n1).1 cid keyName (some v2) i2 n2).1 cid keyName = 1 ∧
      get_company_secret_value f (set_company_secret f (set_company_secret f crows
        cid keyName (some v1) i1 n1).1 cid keyName (some v2) i2 n2).1 cid keyName
        = some v2) := by
  have core : ∀ (rs : List SecretRow) (o : String),
      countSecret rs o keyName ≤ 1 →
      countSecret (upsertSecretRows (upsertSecretRows rs o keyName (f.encrypt v1) i1 n1).1
        o keyName (f.encrypt v2) i2 n2).1 o keyName = 1 := by
    intro rs o hle
    have h1 := countSecret_upsert rs o keyName (f.encrypt v1) i1 n1
    have h2 := countSecret_upsert (upsertSecretRows rs o keyName (f.encrypt v1) i1 n1).1
      o keyName (f.encrypt v2) i2 n2
    have h1' : countSecret (upsertSecretRows rs o keyName (f.encrypt v1) i1 n1).1
        o keyName = 1 := by
      rw [h1]
      rcases Nat.lt_or_ge (countSecret rs o keyName) 1 with hlt | hge
      · simp [Nat.lt_one_iff.mp hlt]
      · have : countSecret rs o keyName = 1 := Nat.le_antisymm hle hge
        simp [this]
    rw [h2, h1']
    simp
  exact ⟨⟨core rows uid hcount,
          getSecretRows_upsert f hf _ uid keyName v2 i2 n2⟩,
         ⟨core crows cid hcountc,
          getSecretRows_upsert f hf _ cid keyName v2 i2 n2⟩⟩

/-- Witness for C4 at concrete inputs. -/
theorem c4_upsert_single_row_check :
    countSecret (set_secret plainCipher
        (set_secret plainCipher [] "U1" "trello_token" (some "t-one") 0 0).1
        "U1" "trello_token" (some "t-two") 1 1).1 "U1" "trello_token" = 1 ∧
    get_secret plainCipher (set_secret plainCipher
        (set_secret plainCipher [] "U1" "trello_token" (some "t-one") 0 0).1
        "U1" "trello_token" (some "t-two") 1 1).1 "U1" "trello_token" = some "t-two" :=
  (c4_upsert_single_row plainCipher plainCipher_ok [] [] "U1" "C1" "trello_token"
    "t-one" "t-two" 0 0 1 1 (by decide) (by decide) (by decide)).1

/-- The company secret table of the C1 counterexample: the tenant T stores
the empty string as its OpenAI API key. -/
def c1CompanyRows : List SecretRow :=
  (set_company_secret plainCipher [] "T" "openai_api_key" (some "") 0 0).1

/-- The user secret table of the C1 counterexample: user U in tenant T
stores a non-empty OpenAI API key. -/
def c1UserRows : List SecretRow :=
  (set_secret plainCipher [] "U" "openai_api_key" (some "sk-xyz") 1 0).1

/-- Counterexample to claim C1 as stated: a tenant-scoped value ("") exists
for (T, openai_api_key), yet resolution returns the user-scoped value, and
the presence of the user-scoped value changes the result (none versus
some "sk-xyz") while the tenant-scoped value is present. -/
theorem c1_counterexample :
    get_company_secret_value plainCipher c1CompanyRows "T" "openai_api_key" = some "" ∧
    (resolveOpenAIKey plainCipher c1CompanyRows c1UserRows "T" "U").1 = some "sk-xyz" ∧
    (resolveOpenAIKey plainCipher c1CompanyRows [] "T" "U").1 = none := by
  decide

/-- Claim C1 (amended): resolution returns the tenant-scoped value whenever
a NON-EMPTY tenant-scoped value exists, regardless of the user scope; when
the tenant-scoped value is absent or empty (Python-falsy), the result is
exactly the user-scoped lookup. -/
theorem c1_tenant_precedence (f : Fernet) (crows urows : List SecretRow)
    (cid uid : String) :
    (∀ v, get_company_secret_value f crows cid "openai_api_key" = some v → v ≠ "" →
      (resolveOpenAIKey f crows urows cid uid).1 = some v) ∧
    (truthyStr (get_company_secret_value f crows cid "openai_api_key") = false →
      (resolveOpenAIKey f crows urows cid uid).1
        = get_secret f urows uid "openai_api_key") := by
  constructor
  · intro v hv hne
    have ht : truthyStr (get_company_secret_value f crows cid "openai_api_key") = true := by
      rw [hv]
      simp [truthyStr, hne]
    simp only [resolveOpenAIKey, ht, if_pos]
    exact hv
  · intro h
    simp only [resolveOpenAIKey, h, Bool.false_eq_true, if_false]

/-- Witness for C1 (amended), realizing the spec's end-to-end scenario 3:
tenant key "sk-abc" beats user key "sk-xyz". -/
theorem c1_tenant_precedence_check :
    (resolveOpenAIKey plainCipher
      (set_company_secret plainCipher [] "T" "openai_api_key" (some "sk-abc") 0 0).1
      (set_secret plainCipher [] "U" "openai_api_key" (some "sk-xyz") 1 0).1
      "T" "U").1 = some "sk-abc" :=
  (c1_tenant_precedence plainCipher
    (set_company_secret plainCipher [] "T" "openai_api_key" (some "sk-abc") 0 0).1
    (set_secret plainCipher [] "U" "openai_api_key" (some "sk-xyz") 1 0).1
    "T" "U").1 "sk-abc" (by decide) (by decide)

/-- Claim C10: company-level Trello credentials are used only as a pair —
if either of trello_api_key / trello_token is absent at the company scope,
both values come from the user scope; and in every state the resolved pair
is either exactly the company pair or exactly the user pair, never a mix. -/
theorem c10_trello_pair (f : Fernet) (crows urows : List SecretRow)
    (cid uid : String) :
    ((get_company_secret_value f crows cid "trello_api_key" = none ∨
      get_company_secret_value f crows cid "trello_token" = none) →
      ((resolveTrelloCreds f crows urows cid uid).1,
       (resolveTrelloCreds f crows urows cid uid).2.1)
        = (get_secret f urows uid "trello_api_key",
           get_secret f urows uid "trello_token")) ∧
    (((resolveTrelloCreds f crows urows cid uid).1,
      (resolveTrelloCreds f crows urows cid uid).2.1)
        = (get_company_secret_value f crows cid "trello_api_key",
           get_company_secret_value f crows cid "trello_token") ∨
     ((resolveTrelloCreds f crows urows cid uid).1,
      (resolveTrelloCreds f crows urows cid uid).2.1)
        = (get_secret f urows uid "trello_api_key",
           get_secret f urows uid "trello_token")) := by
  constructor
  · intro h
    have hcond : (truthyStr (get_company_secret_value f crows cid "trello_api_key") &&
        truthyStr (get_company_secret_value f crows cid "trello_token")) = false := by
      rcases h with h | h <;> rw [h] <;> simp [truthyStr]
    simp only [resolveTrelloCreds, hcond, Bool.false_eq_true, if_false]
  · cases hcond : (truthyStr (get_company_secret_value f crows cid "trello_api_key") &&
        truthyStr (get_company_secret_value f crows cid "trello_token"))
    · right
      simp only [resolveTrelloCreds, hcond, Bool.false_eq_true, if_false]
    · left
      simp only [resolveTrelloCreds, hcond, if_true]

/-- Witness for C10: the company stores only a Trello key (no token), the
user stores both, so both resolved values are the user's. -/
theorem c10_trello_pair_check :
    ((resolveTrelloCreds plainCipher
        (set_company_secret plainCipher [] "T" "trello_api_key" (some "ck") 0 0).1
        (set_secret plainCipher
          (set_secret plainCipher [] "U" "trello_api_key" (some "uk") 1 0).1
          "U" "trello_token" (some "ut") 2 0).1 "T" "U").1,
     (resolveTrelloCreds plainCipher
        (set_company_secret plainCipher [] "T" "trello_api_key" (some "ck") 0 0).1
        (set_secret plainCipher
          (set_secret plainCipher [] "U" "trello_api_key" (some "uk") 1 0).1
          "U" "trello_token" (some "ut") 2 0).1 "T" "U").2.1)
      = (some "uk", some "ut") := by
  have h := (c10_trello_pair plainCipher
    (set_company_secret plainCipher [] "T" "trello_api_key" (some "ck") 0 0).1
    (set_secret plainCipher
      (set_secret plainCipher [] "U" "trello_api_key" (some "uk") 1 0).1
      "U" "trello_token" (some "ut") 2 0).1 "T" "U").1 (Or.inr (by decide))
  rw [h]
  decide

/-! ## Users and login tokens (src/db.py tables users / login_tokens) -/

structure UserRow where
  id : String
  email : String
  company_id : String
  role : String
  created_at : Nat
deriving Repr, DecidableEq

structure TokenRow where
  id : String
  user_id : String
  token_hash : String
  expires_at : Nat
  used_at : Option Nat
  created_at : Nat
deriving Repr, DecidableEq

/-- `SELECT * FROM login_tokens WHERE token_hash = h` (`fetchone`). -/
def findToken (tokens : List TokenRow) (tokenHash : String) : Option TokenRow :=
  tokens.find? (fun t => t.token_hash == tokenHash)

/-- `SELECT * FROM users WHERE id = i` (`fetchone`). -/
def findUser (users : List UserRow) (userId : String) : Option UserRow :=
  users.find? (fun u => u.id == userId)

/-- `UPDATE login_tokens SET used_at = now WHERE id = i`, applied to one row. -/
def markTokenUsed (i : String) (now : Nat) (t : TokenRow) : TokenRow :=
  if t.id = i then { t with used_at := some now } else t

/-- `create_login_token` (src/db.py lines 191-204). -/
def create_login_token (tokens : List TokenRow) (user_id tokenHash : String)
    (expires_at : Nat) (newId : String) (now : Nat) : List TokenRow × String :=
  (tokens ++ [{ id := newId, user_id := user_id, token_hash := tokenHash,
                expires_at := expires_at, used_at := none, created_at := now }], newId)

/-- `use_login_token` (src/db.py lines 207-225): in one transaction, find
the token row by hash; return None when it is absent, already used, or
expired (`expires_at <= utcnow()`); otherwise stamp `used_at` and return
the owning user row.  The pair carries the verification result and the
login_tokens table after the transaction. -/
def use_login_token (tokens : List TokenRow) (users : List UserRow)
    (tokenHash : String) (now : Nat) : Option UserRow × List TokenRow :=
  match findToken tokens tokenHash with
  | none => (none, tokens)
  | some tokenRow =>
    if tokenRow.used_at.isSome then (none, tokens)
    else if tokenRow.expires_at ≤ now then (none, tokens)
    else
      (findUser users tokenRow.user_id, tokens.map (markTokenUsed tokenRow.id now))

/-- `verify_login_token` (src/auth.py lines 59-61); the HMAC-SHA256
`_hash_token` of src/auth.py is the external `hashlib` collaborator,
modelled by the parameter `hashFn`. -/
def verify_login_token (hashFn : String → String) (tokens : List TokenRow)
    (users : List UserRow) (rawToken : String) (now : Nat) :
    Option UserRow × List TokenRow :=
  use_login_token tokens users (hashFn rawToken) now

theorem findToken_map_mark (tokens : List TokenRow) (h i : String) (n : Nat) :
    findToken (tokens.map (markTokenUsed i n)) h
      = (findToken tokens h).map (markTokenUsed i n) := by
  induction tokens with
  | nil => rfl
  | cons t rest ih =>
    have hm : ((markTokenUsed i n t).token_hash == h) = (t.token_hash == h) := by
      unfold markTokenUsed
      split <;> rfl
    simp only [List.map_cons, findToken, List.find?]
    rw [hm]
    cases ht : (t.token_hash == h)
    · exact ih
    · rfl

theorem use_login_token_of_find_none (tokens : List TokenRow) (users : List UserRow)
    (tokenHash : String) (now : Nat)
    (hfind : findToken tokens tokenHash = none) :
    use_login_token tokens users tokenHash now = (none, tokens) := by
  unfold use_login_token
  rw [hfind]

theorem use_login_token_of_find_some (tokens : List TokenRow) (users : List UserRow)
    (tokenHash : String) (now : Nat) (r : TokenRow)
    (hfind : findToken tokens tokenHash = some r) :
    use_login_token tokens users tokenHash now
      = if r.used_at.isSome then (none, tokens)
        else if r.expires_at ≤ now then (none, tokens)
        else (findUser users r.user_id, tokens.map (markTokenUsed r.id now)) := by
  unfold use_login_token
  rw [hfind]

/-- A successful verification happens exactly on the unused-and-unexpired
branch, and it rewrites the table by stamping the found row's used_at. -/
theorem use_login_token_success (tokens : List TokenRow) (users : List UserRow)
    (tokenHash : String) (now : Nat) (u : UserRow)
    (hsucc : (use_login_token tokens users tokenHash now).1 = some u) :
    ∃ r, findToken tokens tokenHash = some r ∧ r.used_at = none ∧
      now < r.expires_at ∧ findUser users r.user_id = some u ∧
      (use_login_token tokens users tokenHash now).2
        = tokens.map (markTokenUsed r.id now) := by
  cases hfind : findToken tokens tokenHash with
  | none =>
    rw [use_login_token_of_find_none tokens users tokenHash now hfind] at hsucc
    exact absurd hsucc (by simp)
  | some r =>
    rw [use_login_token_of_find_some tokens users tokenHash now r hfind] at hsucc ⊢
    cases hused : r.used_at with
    | some t0 => rw [hused] at hsucc; exact absurd hsucc (by simp)
    | none =>
      rw [hused] at hsucc
      by_cases hexp : r.expires_at ≤ now
      · rw [if_neg (by simp), if_pos hexp] at hsucc
        exact absurd hsucc (by simp)
      · rw [if_neg (by simp), if_neg hexp] at hsucc ⊢
        exact ⟨r, rfl, hused, Nat.not_le.mp hexp, hsucc, rfl⟩

/-- Claim C2: verification returns the owning principal iff a token row
with that hash exists, was never used, and expires strictly in the future
(and its owner exists); verification marks the token used, so a second
verification of the same raw token returns invalid; and a token past its
expiry fails verification even when never used. -/
theorem c2_login_token_single_use (hashFn : String → String)
    (tokens : List TokenRow) (users : List UserRow) (raw : String) (now now2 : Nat) :
    (∀ u, (verify_login_token hashFn tokens users raw now).1 = some u ↔
      ∃ r, findToken tokens (hashFn raw) = some r ∧ r.used_at = none ∧
        now < r.expires_at ∧ findUser users r.user_id = some u) ∧
    (∀ u, (verify_login_token hashFn tokens users raw now).1 = some u →
      (verify_login_token hashFn (verify_login_token hashFn tokens users raw now).2
        users raw now2).1 = none) ∧
    (∀ r, findToken tokens (hashFn raw) = some r → r.used_at = none →
      r.expires_at ≤ now →
      (verify_login_token hashFn tokens users raw now).1 = none) := by
  refine ⟨fun u => ⟨fun hsucc => ?_, fun hex => ?_⟩, fun u hsucc => ?_, fun r hfind hused hexp => ?_⟩
  · obtain ⟨r, hfind, hused, hexp, huser, _⟩ :=
      use_login_token_success tokens users (hashFn raw) now u hsucc
    exact ⟨r, hfind, hused, hexp, huser⟩
  · obtain ⟨r, hfind, hused, hexp, huser⟩ := hex
    show (use_login_token tokens users (hashFn raw) now).1 = some u
    rw [use_login_token_of_find_some tokens users (hashFn raw) now r hfind, hused]
    rw [if_neg (by simp), if_neg (Nat.not_le.mpr hexp)]
    exact huser
  · obtain ⟨r, hfind, _, _, _, hstate⟩ :=
      use_login_token_success tokens users (hashFn raw) now u hsucc
    show (use_login_token (verify_login_token hashFn tokens users raw now).2
        users (hashFn raw) now2).1 = none
    have hstate' : (verify_login_token hashFn tokens users raw now).2
        = tokens.map (markTokenUsed r.id now) := hstate
    rw [hstate']
    have hfindMark : findToken (tokens.map (markTokenUsed r.id now)) (hashFn raw)
        = some (markTokenUsed r.id now r) := by
      rw [findToken_map_mark, hfind]
      rfl
    rw [use_login_token_of_find_some _ users (hashFn raw) now2 _ hfindMark]
    simp [markTokenUsed]
  · show (use_login_token tokens users (hashFn raw) now).1 = none
    rw [use_login_token_of_find_some tokens users (hashFn raw) now r hfind, hused]
    rw [if_neg (by simp), if_pos hexp]

/-- Witness for C2: with one fresh token (hash "h1", expiry 10), the first
verification at time 5 returns the owning user, the second returns
invalid, and at time 12 a never-used copy of the token is invalid. -/
theorem c2_login_token_single_use_check :
    (verify_login_token id
        (create_login_token [] "U1" "h1" 10 "tok1" 0).1
        [⟨"U1", "dana@acme.com", "T1", "admin", 0⟩] "h1" 5).1
      = some ⟨"U1", "dana@acme.com", "T1", "admin", 0⟩ ∧
    (verify_login_token id
        (verify_login_token id (create_login_token [] "U1" "h1" 10 "tok1" 0).1
          [⟨"U1", "dana@acme.com", "T1", "admin", 0⟩] "h1" 5).2
        [⟨"U1", "dana@acme.com", "T1", "admin", 0⟩] "h1" 6).1 = none ∧
    (verify_login_token id
        (create_login_token [] "U1" "h1" 10 "tok1" 0).1
        [⟨"U1", "dana@acme.com", "T1", "admin", 0⟩] "h1" 12).1 = none := by
  have hspec5 := c2_login_token_single_use id
    (create_login_token [] "U1" "h1" 10 "tok1" 0).1
    [⟨"U1", "dana@acme.com", "T1", "admin", 0⟩] "h1" 5 6
  have hspec12 := c2_login_token_single_use id
    (create_login_token [] "U1" "h1" 10 "tok1" 0).1
    [⟨"U1", "dana@acme.com", "T1", "admin", 0⟩] "h1" 12 0
  have hfirst := (hspec5.1 ⟨"U1", "dana@acme.com", "T1", "admin", 0⟩).mpr
    ⟨⟨"tok1", "U1", "h1", 10, none, 0⟩, by decide, rfl, by decide, by decide⟩
  exact ⟨hfirst, hspec5.2.1 _ hfirst,
    hspec12.2.2 ⟨"tok1", "U1", "h1", 10, none, 0⟩ (by decide) rfl (by decide)⟩

/-! ## Agent tool loop (src/llm_handler.py, AgenticLLMHandler) -/

/-- The `max_iterations` value that `_rebuild_agent` passes to the agent
executor (src/llm_handler.py line 218). -/
def agentMaxIterations : Nat := 10

/-- Modelled from the spec: what the LLM decides at each Planning step of
§4.5 — either respond directly or request one tool call.  The deciding
code is the external langchain `AgentExecutor` / LLM, not repository
code. -/
inductive AgentDecision where
  | finish (output : String)
  | callTool (name input : String)

/-- Modelled from the spec: the bounded Planning↔Tool-Execution cycle of
§4.5, whose loop body lives in the external langchain `AgentExecutor`;
only its `max_iterations` configuration (10) is repository code
(src/llm_handler.py lines 212-219).  `policy` is the model's next
decision given the scratchpad of (tool name, observation) pairs so far;
`tools` maps a tool call to its observation.  When the iteration budget is
exhausted the executor stops with a forced final response instead of
another tool call.  Returns the final output and the number of tool
invocations performed. -/
def agentLoop (policy : List (String × String) → AgentDecision)
    (tools : String → String → String) :
    Nat → List (String × String) → String × Nat
  | 0, steps => ("Agent stopped due to iteration limit or time limit.", steps.length)
  | n + 1, steps =>
    match policy steps with
    | .finish out => (out, steps.length)
    | .callTool name input =>
      agentLoop policy tools n (steps ++ [(name, tools name input)])

/-- One chat turn through the executor built by `_rebuild_agent`. -/
def runAgentTurn (policy : List (String × String) → AgentDecision)
    (tools : String → String → String) : String × Nat :=
  agentLoop policy tools agentMaxIterations []

theorem agentLoop_le (policy : List (String × String) → AgentDecision)
    (tools : String → String → String) :
    ∀ (n : Nat) (steps : List (String × String)),
      (agentLoop policy tools n steps).2 ≤ steps.length + n := by
  intro n
  induction n with
  | zero => intro steps; simp [agentLoop]
  | succ n ih =>
    intro steps
    unfold agentLoop
    cases policy steps with
    | finish out => simp
    | callTool name input =>
      have h := ih (steps ++ [(name, tools name input)])
      simp only [List.length_append, List.length_cons, List.length_nil] at h
      show (agentLoop policy tools n (steps ++ [(name, tools name input)])).2
        ≤ steps.length + (n + 1)
      omega

theorem agentLoop_all_tools (tools : String → String → String)
    (nm inp : String) :
    ∀ (n : Nat) (steps : List (String × String)),
      agentLoop (fun _ => .callTool nm inp) tools n steps
        = ("Agent stopped due to iteration limit or time limit.", steps.length + n) := by
  intro n
  induction n with
  | zero => intro steps; simp [agentLoop]
  | succ n ih =>
    intro steps
    unfold agentLoop
    simp only
    rw [ih (steps ++ [(nm, tools nm inp)])]
    simp only [List.length_append, List.length_cons, List.length_nil]
    congr 1
    omega

/-- Claim C5: a single agent turn performs at most `agentMaxIterations`
(= 10) tool invocations no matter what the model decides, and a model
that keeps requesting tools is cut off at exactly 10 tool calls with a
forced final response — the turn always terminates. -/
theorem c5_agent_loop_bounded (policy : List (String × String) → AgentDecision)
    (tools : String → String → String) (nm inp : String) :
    (runAgentTurn policy tools).2 ≤ agentMaxIterations ∧
    agentMaxIterations = 10 ∧
    runAgentTurn (fun _ => .callTool nm inp) tools
      = ("Agent stopped due to iteration limit or time limit.", 10) := by
  refine ⟨?_, rfl, ?_⟩
  · have h := agentLoop_le policy tools agentMaxIterations []
    simpa using h
  · have h := agentLoop_all_tools tools nm inp agentMaxIterations []
    simpa using h

/-! ## Document search tool (src/tools.py, search_project_documents) -/

/-- The `doc.metadata` dictionary of a retrieved chunk; absent keys are
`none` and the tool applies the dictionary-get defaults. -/
structure DocMeta where
  source : Option String := none
  chunk_index : Option Nat := none
  total_chunks : Option Nat := none

/-- A document returned by `vector_store.similarity_search`. -/
structure RetrievedDoc where
  page_content : String
  metadata : DocMeta

/-- The external FAISS vector store collaborator: `similarity_search` with
its (query, k) arguments; a raised exception is the `.error` case, which
the tool catches. -/
structure VectorStore where
  similarity_search : String → Nat → Except String (List RetrievedDoc)

/-- The tool's reply when no vector store exists (src/tools.py line 52). -/
def noDocsMessage : String :=
  "No documents have been uploaded yet. Please ask the user to upload project documents first."

/-- The literal prefix of the no-match reply (src/tools.py line 58). -/
def noMatchMessagePre : String :=
  "No relevant information found for query: \x27"

/-- The tool's reply when the index exists but returns no passages. -/
def noMatchMessage (query : String) : String :=
  noMatchMessagePre ++ query ++ "\x27"

/-- One formatted passage of the tool's output (src/tools.py lines 62-70);
`i` is the 1-based position from `enumerate(results, 1)`. -/
def formatDocResult (i : Nat) (doc : RetrievedDoc) : String :=
  let source := doc.metadata.source.getD "Unknown Document"
  let chunkIdx := doc.metadata.chunk_index.getD 0 + 1
  let totalChunks := doc.metadata.total_chunks.getD 1
  "### 📄 Source " ++ toString i ++ ": `" ++ source ++ "`\n" ++
  "**Section:** " ++ toString chunkIdx ++ " of " ++ toString totalChunks ++ "\n\n" ++
  "> " ++ doc.page_content ++ "\n\n" ++ "---\n\n"

/-- `search_project_documents` (src/tools.py lines 38-77): absent store →
fixed guidance message; search raising → caught and rendered as an error
string; empty result list → no-match message; otherwise the formatted
passages with citations. -/
def search_project_documents (vector_store : Option VectorStore) (query : String) :
    String :=
  match vector_store with
  | none => noDocsMessage
  | some vs =>
    match vs.similarity_search query 4 with
    | .error e => "Error searching documents: " ++ e
    | .ok results =>
      if results.isEmpty then noMatchMessage query
      else
        "📚 **Found " ++ toString results.length ++ " relevant sections:**\n\n" ++
        String.join (results.enum.map (fun p => formatDocResult (p.1 + 1) p.2)) ++
        "*💡 Use the information above to answer the user\x27s question. Always cite the source document names.*"

theorem noDocsMessage_ne_noMatchMessage (query : String) :
    noDocsMessage ≠ noMatchMessage query := by
  intro h
  have hd := congrArg String.data h
  rw [noMatchMessage, String.data_append, String.data_append] at hd
  have h3 := congrArg (fun l => l[3]?) hd
  have hp : 3 < noMatchMessagePre.data.length := by decide
  simp only at h3
  rw [List.getElem?_append_left (by simp only [List.length_append]; omega),
      List.getElem?_append_left hp] at h3
  revert h3
  decide

/-- Claim C6: document search never raises — an absent index yields the
fixed "no documents uploaded" message, a raising store is caught into an
error string, an empty result set yields the no-match message, and the
absent-index reply is distinguishable from every no-match reply. -/
theorem c6_search_safe (vs : VectorStore) (query q2 : String) :
    search_project_documents none query = noDocsMessage ∧
    (∀ e, vs.similarity_search query 4 = .error e →
      search_project_documents (some vs) query = "Error searching documents: " ++ e) ∧
    (vs.similarity_search query 4 = .ok [] →
      search_project_documents (some vs) query = noMatchMessage query) ∧
    noDocsMessage ≠ noMatchMessage q2 := by
  refine ⟨rfl, fun e he => ?_, fun hok => ?_, noDocsMessage_ne_noMatchMessage q2⟩
  · simp [search_project_documents, he]
  · simp [search_project_documents, hok]

/-- Witness for C6: a store whose search returns no passages is told apart
from the absent store. -/
theorem c6_search_safe_check :
    search_project_documents none "who owns milestone 1" = noDocsMessage ∧
    search_project_documents (some ⟨fun _ _ => .ok []⟩) "who owns milestone 1"
      = noMatchMessage "who owns milestone 1" ∧
    noDocsMessage ≠ noMatchMessage "who owns milestone 1" := by
  have h := c6_search_safe ⟨fun _ _ => .ok []⟩ "who owns milestone 1" "who owns milestone 1"
  exact ⟨h.1, h.2.2.1 rfl, h.2.2.2⟩

/-! ## Auto-indexing fingerprint (src/app.py lines 727-782) -/

structure UploadedFile where
  name : String
  size : Nat
deriving Repr, DecidableEq

/-- The tuple `(f.name + str(f.size) for f in ai_uploaded_files)` whose
Python `hash` is the file-set fingerprint (src/app.py line 729). -/
def filesFingerprint (files : List UploadedFile) : List String :=
  files.map (fun f => f.name ++ toString f.size)

/-- The AI-tab session state touched by the auto-index block:
`st.session_state.vector_store`, `files_hash` and `indexed_files`. -/
structure AISession (VS : Type) where
  vector_store : Option VS
  files_hash : Option Int
  indexed_files : List String
deriving Repr, DecidableEq

/-- The auto-index step of the AI tab (src/app.py lines 727-782).
`pyHash` models Python's builtin `hash` on the fingerprint tuple;
`buildIndex` models `create_vector_store_simple` / `_pgvector` (chunking
plus the external embedding call), yielding `none` when no valid content
is found or the call raises.  The second component counts how many times
an index build (re-embedding) ran.  When the current hash equals the
recorded one the block does nothing; with no files the session index is
cleared. -/
def autoIndexStep {VS : Type} (pyHash : List String → Int)
    (buildIndex : List UploadedFile → Option VS) (apiKeyPresent : Bool)
    (s : AISession VS) (files : List UploadedFile) : AISession VS × Nat :=
  if files.isEmpty then
    ({ vector_store := none, files_hash := none, indexed_files := [] }, 0)
  else
    let current := pyHash (filesFingerprint files)
    if s.files_hash = some current then (s, 0)
    else if !apiKeyPresent then (s, 0)
    else
      match buildIndex files with
      | some vs =>
        ({ vector_store := some vs, files_hash := some current,
           indexed_files := files.map (·.name) }, 1)
      | none => (s, 1)

/-- Claim C7: when the fingerprint of the uploaded (filename, size) pairs
hashes to the recorded value, the auto-index step performs no
re-embedding and leaves the whole session state — including the existing
vector index — untouched; re-embedding can only happen when the hash
differs from the recorded one. -/
theorem c7_fingerprint_skip (VS : Type) (pyHash : List String → Int)
    (buildIndex : List UploadedFile → Option VS) (apiKeyPresent : Bool)
    (s : AISession VS) (files : List UploadedFile) (hfiles : files ≠ []) :
    (s.files_hash = some (pyHash (filesFingerprint files)) →
      autoIndexStep pyHash buildIndex apiKeyPresent s files = (s, 0)) ∧
    ((autoIndexStep pyHash buildIndex apiKeyPresent s files).2 ≠ 0 →
      s.files_hash ≠ some (pyHash (filesFingerprint files))) := by
  have hne : files.isEmpty = false := by
    cases files with
    | nil => exact absurd rfl hfiles
    | cons a l => rfl
  constructor
  · intro heq
    unfold autoIndexStep
    rw [hne]
    simp only [Bool.false_eq_true, if_false]
    rw [if_pos heq]
  · intro hcount heq
    apply hcount
    unfold autoIndexStep
    rw [hne]
    simp only [Bool.false_eq_true, if_false]
    rw [if_pos heq]

/-- Witness for C7: re-uploading the same two files leaves the session
(and its index, here the value 7) unchanged with zero embedding runs. -/
theorem c7_fingerprint_skip_check :
    autoIndexStep (fun l => Int.ofNat (String.join l).length) (fun _ => some 7) true
      { vector_store := some 7,
        files_hash := some (Int.ofNat (String.join
          (filesFingerprint [⟨"prd.pdf", 120⟩, ⟨"timeline.txt", 30⟩])).length),
        indexed_files := ["prd.pdf", "timeline.txt"] }
      [⟨"prd.pdf", 120⟩, ⟨"timeline.txt", 30⟩]
      = ({ vector_store := some 7,
           files_hash := some (Int.ofNat (String.join
             (filesFingerprint [⟨"prd.pdf", 120⟩, ⟨"timeline.txt", 30⟩])).length),
           indexed_files := ["prd.pdf", "timeline.txt"] }, 0) :=
  (c7_fingerprint_skip Nat (fun l => Int.ofNat (String.join l).length) (fun _ => some 7)
    true _ [⟨"prd.pdf", 120⟩, ⟨"timeline.txt", 30⟩] (by decide)).1 rfl

/-! ## Companies and first-user-admin (src/db.py) -/

structure CompanyRow where
  id : String
  name : String
  domain : Option String
  created_at : Nat
deriving Repr, DecidableEq

structure DB where
  companies : List CompanyRow
  users : List UserRow
deriving Repr, DecidableEq

/-- The `UPDATE companies SET domain = d WHERE id = i` statement, applied
to one row. -/
def setCompanyDomain (i : String) (domain : Option String) (c : CompanyRow) : CompanyRow :=
  if c.id = i then { c with domain := domain } else c

/-- `get_or_create_company` (src/db.py lines 127-157): look up by domain
when one is given (Python-truthy), then by name — filling in a missing
domain — else insert a fresh company row. -/
def get_or_create_company (db : DB) (name : String) (domain : Option String)
    (newId : String) (now : Nat) : CompanyRow × DB :=
  match (if truthyStr domain then db.companies.find? (fun c => c.domain == domain)
         else none) with
  | some row => (row, db)
  | none =>
    match db.companies.find? (fun c => c.name == name) with
    | some row =>
      if truthyStr domain && !(truthyStr row.domain) then
        ({ row with domain := domain },
         { db with companies := db.companies.map (setCompanyDomain row.id domain) })
      else (row, db)
    | none =>
      (⟨newId, name, domain, now⟩,
       { db with companies := db.companies ++ [⟨newId, name, domain, now⟩] })

/-- `SELECT * FROM users WHERE email = e` (`fetchone`). -/
def findUserByEmail (users : List UserRow) (email : String) : Option UserRow :=
  users.find? (fun u => u.email == email)

/-- `get_or_create_user` (src/db.py lines 167-188): return the existing
user for the email if any; otherwise resolve the company, count that
company's members in the same transaction, and insert the user with role
"admin" iff the count is zero. -/
def get_or_create_user (db : DB) (email companyName : String) (domain : Option String)
    (newCompanyId newUserId : String) (now : Nat) : UserRow × DB :=
  match findUserByEmail db.users email with
  | some row => (row, db)
  | none =>
    let cdb := get_or_create_company db companyName domain newCompanyId now
    let existingCount := (cdb.2.users.filter (fun u => u.company_id == cdb.1.id)).length
    let role := if existingCount = 0 then "admin" else "member"
    (⟨newUserId, email, cdb.1.id, role, now⟩,
     { cdb.2 with users := cdb.2.users ++ [⟨newUserId, email, cdb.1.id, role, now⟩] })

theorem get_or_create_company_users (db : DB) (name : String) (domain : Option String)
    (newId : String) (now : Nat) :
    (get_or_create_company db name domain newId now).2.users = db.users := by
  unfold get_or_create_company
  split
  · rfl
  · split
    · split <;> rfl
    · rfl

theorem get_or_create_user_of_new (db : DB) (email companyName : String)
    (domain : Option String) (newCompanyId newUserId : String) (now : Nat)
    (hnew : findUserByEmail db.users email = none) :
    get_or_create_user db email companyName domain newCompanyId newUserId now
      = ((⟨newUserId, email,
            (get_or_create_company db companyName domain newCompanyId now).1.id,
            (if ((get_or_create_company db companyName domain newCompanyId now).2.users.filter
                  (fun u => u.company_id ==
                    (get_or_create_company db companyName domain newCompanyId now).1.id)).length = 0
             then "admin" else "member"), now⟩ : UserRow),
         { (get_or_create_company db companyName domain newCompanyId now).2 with
           users := (get_or_create_company db companyName domain newCompanyId now).2.users
             ++ [⟨newUserId, email,
                  (get_or_create_company db companyName domain newCompanyId now).1.id,
                  (if ((get_or_create_company db companyName domain newCompanyId now).2.users.filter
                        (fun u => u.company_id ==
                          (get_or_create_company db companyName domain newCompanyId now).1.id)).length = 0
                   then "admin" else "member"), now⟩] }) := by
  unfold get_or_create_user
  rw [hnew]

/-- Claim C9: a user created under a tenant with no existing members gets
role "admin", and one created under a tenant that already has a member
gets role "member"; the membership count is taken against the same
database state the insert runs on (the model is one atomic step). -/
theorem c9_first_user_admin (db : DB) (email companyName : String)
    (domain : Option String) (newCompanyId newUserId : String) (now : Nat)
    (hnew : findUserByEmail db.users email = none) :
    ((db.users.filter (fun u => u.company_id ==
        (get_or_create_user db email companyName domain newCompanyId newUserId now).1.company_id)).length = 0 →
      (get_or_create_user db email companyName domain newCompanyId newUserId now).1.role
        = "admin") ∧
    ((db.users.filter (fun u => u.company_id ==
        (get_or_create_user db email companyName domain newCompanyId newUserId now).1.company_id)).length ≠ 0 →
      (get_or_create_user db email companyName domain newCompanyId newUserId now).1.role
        = "member") := by
  rw [get_or_create_user_of_new db email companyName domain newCompanyId newUserId now hnew]
  rw [get_or_create_company_users]
  constructor
  · intro h0
    simp only [h0]
    rfl
  · intro hn
    simp only [if_neg hn]

/-- Witness for C9: the first signup under a fresh tenant is admin; a
second signup under the same (domain-matched) tenant is member. -/
theorem c9_first_user_admin_check :
    (get_or_create_user ⟨[], []⟩ "dana@acme.com" "Acme" (some "acme.com")
      "C1" "U1" 0).1.role = "admin" ∧
    (get_or_create_user
      ⟨[⟨"C1", "Acme", some "acme.com", 0⟩],
       [⟨"U1", "dana@acme.com", "C1", "admin", 0⟩]⟩
      "lee@acme.com" "Acme" (some "acme.com") "C2" "U2" 1).1.role = "member" := by
  have h1 := c9_first_user_admin ⟨[], []⟩ "dana@acme.com" "Acme" (some "acme.com")
    "C1" "U1" 0 (by decide)
  have h2 := c9_first_user_admin
    ⟨[⟨"C1", "Acme", some "acme.com", 0⟩],
     [⟨"U1", "dana@acme.com", "C1", "admin", 0⟩]⟩
    "lee@acme.com" "Acme" (some "acme.com") "C2" "U2" 1 (by decide)
  exact ⟨h1.1 (by decide), h2.2 (by decide)⟩

/-! ## Document processing batch (src/src/document_processor.py, process_files) -/

/-- The metadata dictionary a format-specific reader returns; absent keys
are `none`.  The keys are the ones the readers write: `pages`/`parser`
(PDF), `sheets`/`sheet_count` (Excel), `encoding`/`confidence` (TXT),
`error`. -/
structure FileMetadata where
  pages : Option Nat := none
  sheets : Option (List String) := none
  encoding : Option String := none
  confidence : Option String := none
  parser : Option String := none
  sheet_count : Option Nat := none
  error : Option String := none
deriving Repr, DecidableEq

/-- Python truthiness of the metadata dict (`if metadata:`): non-empty. -/
def metadataTruthy (m : FileMetadata) : Bool :=
  m.pages.isSome || m.sheets.isSome || m.encoding.isSome || m.confidence.isSome ||
  m.parser.isSome || m.sheet_count.isSome || m.error.isSome

/-- The `metadata_str` suffix built in process_files (src/src/
document_processor.py lines 77-84): pages, else sheet count, else
encoding, else nothing. -/
def metadataStr (m : FileMetadata) : String :=
  if metadataTruthy m then
    match m.pages with
    | some p => " (" ++ toString p ++ " pages)"
    | none =>
      match m.sheets with
      | some sh => " (" ++ toString sh.length ++ " sheets)"
      | none =>
        match m.encoding with
        | some enc => " (encoding: " ++ enc ++ ")"
        | none => ""
  else ""

/-- Result of a dispatched `_read_pdf/_read_docx/_read_txt/_read_excel`
call (external parser collaborators): the returned `(content, metadata)`
pair, or `.exn` for a raised exception. -/
inductive ReadOutcome where
  | ok (content : String) (metadata : FileMetadata)
  | exn (msg : String)
deriving Repr, DecidableEq

/-- An uploaded file as process_files sees it: its name plus what the
format-specific reader produces for its bytes. -/
structure InputFile where
  name : String
  read : ReadOutcome
deriving Repr, DecidableEq

/-- `charsHavePre pat l` is true when pat is an initial segment of l. -/
def charsHavePre : List Char → List Char → Bool
  | [], _ => true
  | _ :: _, [] => false
  | p :: ps, c :: cs => p == c && charsHavePre ps cs

/-- `hasSubstring pat l` is true when pat occurs contiguously in l. -/
def hasSubstring (pat : List Char) : List Char → Bool
  | [] => pat.isEmpty
  | c :: rest => charsHavePre pat (c :: rest) || hasSubstring pat rest

/-- Python `str.lower()` on the character list. -/
def pyLower (s : String) : String :=
  String.mk (s.data.map Char.toLower)

/-- Python `str.startswith(pre)`. -/
def pyStartsWith (s pre : String) : Bool :=
  charsHavePre pre.data s.data

/-- Python `str.strip()`: drop leading and trailing whitespace. -/
def pyStrip (s : String) : String :=
  String.mk (((s.data.dropWhile Char.isWhitespace).reverse.dropWhile
    Char.isWhitespace).reverse)

/-- Splits off the last dot, returning (chars before it, dot and after). -/
def lastDotSplit : List Char → Option (List Char × List Char)
  | [] => none
  | c :: rest =>
    match lastDotSplit rest with
    | some (b, a) => some (c :: b, a)
    | none => if c = '.' then some ([], c :: rest) else none

/-- `os.path.splitext(...)[1]` for a bare filename: the extension starting
at the last dot, empty when the name has no dot or only leading dots
before it. -/
def splitextExt (name : String) : String :=
  match lastDotSplit name.data with
  | some (before, ext) => if before.any (fun c => c ≠ '.') then String.mk ext else ""
  | none => ""

/-- The extensions dispatched to a reader (src/src/document_processor.py
lines 63-70); anything else takes the unsupported-format branch. -/
def supportedReaderExt (ext : String) : Bool :=
  ext == ".pdf" || ext == ".docx" || ext == ".txt" || ext == ".xlsx" || ext == ".xls"

/-- The per-file extraction outcome after extension dispatch (src/src/
document_processor.py lines 58-73). -/
def dispatchOutcome (f : InputFile) : ReadOutcome :=
  if supportedReaderExt (pyLower (splitextExt f.name)) then f.read
  else .ok ("[Skipped unsupported file format: " ++ f.name ++ "]")
         { error := some "Unsupported format" }

/-- `if content and not content.startswith("[Skipped") and not
content.startswith("Error")` (src/src/document_processor.py line 75). -/
def processedContentOK (content : String) : Bool :=
  !(content == "") && !(pyStartsWith content "[Skipped") && !(pyStartsWith content "Error")

/-- One entry of `file_details`. -/
structure FileDetail where
  name : String
  status : String
  metadata : FileMetadata
deriving Repr, DecidableEq

/-- The accumulator loop of process_files (src/src/document_processor.py
lines 56-106), carrying `combined_text` and `file_details`. -/
def processFilesGo : List InputFile → String → List FileDetail → String × List FileDetail
  | [], combined, details => (combined, details)
  | f :: rest, combined, details =>
    match dispatchOutcome f with
    | .ok content metadata =>
      if processedContentOK content then
        processFilesGo rest
          (combined ++ "\n\n--- Content from " ++ f.name ++ metadataStr metadata
            ++ " ---\n" ++ content)
          (details ++ [⟨f.name, "Processed", metadata⟩])
      else
        processFilesGo rest combined
          (details ++ [⟨f.name, "Empty or Unreadable", metadata⟩])
    | .exn msg =>
      processFilesGo rest
        (combined ++ "\n\n--- Error reading " ++ f.name ++ " ---\n" ++ msg)
        (details ++ [⟨f.name, "Error: " ++ msg, { error := some msg }⟩])

/-- `DocumentProcessor.process_files` (src/src/document_processor.py lines
42-111): returns `combined_text.strip()` and `file_details`. -/
def process_files (files : List InputFile) : String × List FileDetail :=
  (pyStrip (processFilesGo files "" []).1, (processFilesGo files "" []).2)

/-- The section one file contributes to `combined_text`, stated
independently of the accumulator loop: a processed file is introduced by
`--- Content from <file><metadata suffix> ---`, a failed file by
`--- Error reading <file> ---`, and empty/unreadable/unsupported files
contribute nothing. -/
def sectionOf (f : InputFile) : String :=
  match dispatchOutcome f with
  | .ok content metadata =>
    if processedContentOK content then
      "\n\n--- Content from " ++ f.name ++ metadataStr metadata ++ " ---\n" ++ content
    else ""
  | .exn msg => "\n\n--- Error reading " ++ f.name ++ " ---\n" ++ msg

/-- Concatenation of the per-file sections in batch order. -/
def concatSections : List InputFile → String
  | [] => ""
  | f :: rest => sectionOf f ++ concatSections rest

theorem processFilesGo_combined (files : List InputFile) :
    ∀ (combined : String) (details : List FileDetail),
      (processFilesGo files combined details).1 = combined ++ concatSections files := by
  induction files with
  | nil =>
    intro combined details
    simp [processFilesGo, concatSections, String.append_empty]
  | cons f rest ih =>
    intro combined details
    cases hout : dispatchOutcome f with
    | ok content metadata =>
      cases hc : processedContentOK content with
      | true =>
        simp only [processFilesGo, hout, hc, if_true, concatSections, sectionOf]
        rw [ih]
        simp [String.append_assoc]
      | false =>
        simp only [processFilesGo, hout, hc, Bool.false_eq_true, if_false,
          concatSections, sectionOf]
        rw [ih]
        simp [String.empty_append]
    | exn msg =>
      simp only [processFilesGo, hout, concatSections, sectionOf]
      rw [ih]
      simp [String.append_assoc]

/-- A file whose reader succeeds with encoding metadata, as `_read_txt`
always records for a text file. -/
def c8TxtFile : InputFile :=
  ⟨"a.txt", .ok "hello" { encoding := some "ascii", confidence := some "99.00%" }⟩

/-- Counterexample to claim C8 as stated: for a successfully extracted
text file, the separator carries a metadata suffix after the filename, so
the exact string `--- Content from a.txt ---` appears nowhere in
combined_text. -/
theorem c8_counterexample :
    (process_files [c8TxtFile]).1
      = "--- Content from a.txt (encoding: ascii) ---\nhello" ∧
    hasSubstring "--- Content from a.txt ---".data
      (process_files [c8TxtFile]).1.data = false := by
  constructor
  · rfl
  · rfl

/-- Claim C8 (amended): combined_text is the stripped concatenation, in
batch order, of per-file sections where a successfully extracted file's
text is introduced by `--- Content from <file><metadata suffix> ---` (the
suffix showing pages, sheet count or encoding when the reader recorded
them), a file whose reader raised contributes an
`--- Error reading <file> ---` section, and empty, unreadable or
unsupported files contribute nothing. -/
theorem c8_combined_text (files : List InputFile) :
    (process_files files).1 = pyStrip (concatSections files) := by
  unfold process_files
  rw [processFilesGo_combined files "" []]
  rw [String.empty_append]

end Mira
